import Mathlib

/-!
Verification of the photobundle repository (photometric bundle adjustment
backend, `src/photobundle.cc`) against its natural-language specification.

The embedding is shallow and exact: rasters are total functions
`ℤ → ℤ → ℚ` together with explicit `rows`/`cols` bounds (the function is
total so that an out-of-bounds access is observable as a dependence on
entries outside `[0,rows) × [0,cols)`), C++ `double`/`float` arithmetic is
modelled by exact `ℚ`/`ℝ` arithmetic, and each definition mirrors the
corresponding C++ function line by line.
-/

/-- Bilinear interpolation of raster `I` (bounds `rows × cols`) at subpixel
location `(x, y)`, mirroring `interp2` of `photobundle.cc` lines 26-58:
`max_cols = cols - 1`, `max_rows = rows - 1`, the offset is added to both
coordinates, `xi/yi` are the floors, `xf/yf` the fractional parts, and the
four branches (interior, last-column, last-row, corner, outside) are kept
in source order. -/
def interp2 (rows cols : ℤ) (I : ℤ → ℤ → ℚ) (x y fill offset : ℚ) : ℚ :=
  let maxCols := cols - 1
  let maxRows := rows - 1
  let xs := x + offset
  let ys := y + offset
  let xi := ⌊xs⌋
  let yi := ⌊ys⌋
  let xf := xs - xi
  let yf := ys - yi
  if 0 ≤ xi ∧ xi < maxCols ∧ 0 ≤ yi ∧ yi < maxRows then
    let wx := 1 - xf
    (1 - yf) * (I yi xi * wx + I yi (xi + 1) * xf)
      + yf * (I (yi + 1) xi * wx + I (yi + 1) (xi + 1) * xf)
  else if xi = maxCols ∧ yi < maxRows then
    if 0 < xf then fill else (1 - yf) * I yi xi + yf * I (yi + 1) xi
  else if yi = maxRows ∧ xi < maxCols then
    if 0 < yf then fill else (1 - xf) * I yi xi + xf * I yi (xi + 1)
  else if xi = maxCols ∧ yi = maxRows then
    if 0 < xf ∨ 0 < yf then fill else I yi xi
  else fill

/-- Raster used to exhibit the out-of-bounds read of `interp2`: it is zero
everywhere except at row `-1`, column `1`, which is outside the valid
`2 × 2` region. -/
def oobProbeRaster : ℤ → ℤ → ℚ := fun r c => if r = -1 ∧ c = 1 then 100 else 0

/-- Raster that is zero everywhere, in particular on the valid `2 × 2`
region, where it agrees with `oobProbeRaster`. -/
def zeroRaster : ℤ → ℤ → ℚ := fun _ _ => 0

/-- C2 (code_bug): the last-column branch of `interp2` checks
`xi == max_cols && yi < max_rows` but never checks `0 ≤ yi`, so on a
`2 × 2` raster the coordinate `(x, y) = (1, -1/2)` reads rows `-1` and `0`
of column `1`.  Concretely: `oobProbeRaster` and `zeroRaster` agree on the
whole valid region `[0,2) × [0,2)` (first four conjuncts), yet `interp2`
returns `50` on the first and `0` on the second, so the result depends on
the entry at `(-1, 1)` and the out-of-bounds stencil does not fall back to
the fill value `0`. -/
theorem interp2_reads_out_of_bounds :
    oobProbeRaster 0 0 = zeroRaster 0 0 ∧
    oobProbeRaster 0 1 = zeroRaster 0 1 ∧
    oobProbeRaster 1 0 = zeroRaster 1 0 ∧
    oobProbeRaster 1 1 = zeroRaster 1 1 ∧
    interp2 2 2 oobProbeRaster 1 (-1/2) 0 0 = 50 ∧
    interp2 2 2 zeroRaster 1 (-1/2) 0 0 = 0 := by
  refine ⟨by norm_num [oobProbeRaster, zeroRaster],
          by norm_num [oobProbeRaster, zeroRaster],
          by norm_num [oobProbeRaster, zeroRaster],
          by norm_num [oobProbeRaster, zeroRaster], ?_, ?_⟩
  · norm_num [interp2, oobProbeRaster]
  · norm_num [interp2, zeroRaster]

/-- C9 (confirmed): at integer in-bounds coordinates `(x, y)` with
`0 ≤ x < cols` and `0 ≤ y < rows`, `interp2` returns exactly the raster
entry `I(y, x)`, whichever of the four in-range branches fires. -/
theorem interp2_integer_exact (rows cols : ℤ) (I : ℤ → ℤ → ℚ) (x y : ℤ)
    (fill : ℚ) (hx0 : 0 ≤ x) (hx : x < cols) (hy0 : 0 ≤ y) (hy : y < rows) :
    interp2 rows cols I (x : ℚ) (y : ℚ) fill 0 = I y x := by
  unfold interp2
  simp only [add_zero, Int.floor_intCast, sub_self, lt_self_iff_false,
    if_false, or_self, lt_irrefl]
  split_ifs with h1 h2 h3 h4
  · ring
  · ring
  · ring
  · rfl
  · exfalso; omega

/-- Raster used for the C3 counterexample: value `2` at `(0,1)`, value `4`
at `(1,1)`, zero elsewhere. -/
def edgeProbeRaster : ℤ → ℤ → ℚ :=
  fun r c => if r = 0 ∧ c = 1 then 2 else if r = 1 ∧ c = 1 then 4 else 0

/-- C3 (counterexample): on a `2 × 2` raster, the coordinate
`(x, y) = (1, 1/2)` is exactly on the last valid column (`x = cols - 1`,
zero fractional column part), not on the last row, and has non-zero
fractional row part `1/2`.  The claim says `interp2` returns the fill
value `0` there; the code instead linearly interpolates along the row
axis and returns `(1/2)·I(0,1) + (1/2)·I(1,1) = 3 ≠ 0`. -/
theorem interp2_last_column_not_fill :
    interp2 2 2 edgeProbeRaster 1 (1/2) 0 0 = 3 ∧ (3 : ℚ) ≠ 0 := by
  constructor
  · norm_num [interp2, edgeProbeRaster]
  · norm_num

/-- C3 (amended): the fill value is triggered by the fractional part of
the axis sitting on the border, not by the other axis.  On the
last-column branch (`⌊x⌋ = cols - 1`, `0 ≤ ⌊y⌋ < rows - 1`): a non-zero
fractional column part yields the fill value, a zero fractional column
part degrades to linear interpolation along the row axis; symmetrically
on the last-row branch. -/
theorem interp2_edge_behavior (rows cols : ℤ) (I : ℤ → ℤ → ℚ)
    (x y fill : ℚ) :
    (⌊x⌋ = cols - 1 → 0 ≤ ⌊y⌋ → ⌊y⌋ < rows - 1 →
      (0 < x - ⌊x⌋ → interp2 rows cols I x y fill 0 = fill) ∧
      (x - ⌊x⌋ = 0 → interp2 rows cols I x y fill 0 =
        (1 - (y - ⌊y⌋)) * I ⌊y⌋ (cols - 1) + (y - ⌊y⌋) * I (⌊y⌋ + 1) (cols - 1))) ∧
    (⌊y⌋ = rows - 1 → 0 ≤ ⌊x⌋ → ⌊x⌋ < cols - 1 →
      (0 < y - ⌊y⌋ → interp2 rows cols I x y fill 0 = fill) ∧
      (y - ⌊y⌋ = 0 → interp2 rows cols I x y fill 0 =
        (1 - (x - ⌊x⌋)) * I (rows - 1) ⌊x⌋ + (x - ⌊x⌋) * I (rows - 1) (⌊x⌋ + 1))) := by
  unfold interp2
  simp only [add_zero]
  constructor
  · intro hx hy0 hy
    have hint : ¬(0 ≤ ⌊x⌋ ∧ ⌊x⌋ < cols - 1 ∧ 0 ≤ ⌊y⌋ ∧ ⌊y⌋ < rows - 1) := by omega
    constructor
    · intro hfrac
      rw [if_neg hint, if_pos ⟨hx, hy⟩, if_pos hfrac]
    · intro hfrac
      rw [if_neg hint, if_pos ⟨hx, hy⟩, if_neg (by rw [hfrac]; exact lt_irrefl 0),
        hx]
  · intro hyeq hx0 hxlt
    have hint : ¬(0 ≤ ⌊x⌋ ∧ ⌊x⌋ < cols - 1 ∧ 0 ≤ ⌊y⌋ ∧ ⌊y⌋ < rows - 1) := by omega
    have hA : ¬(⌊x⌋ = cols - 1 ∧ ⌊y⌋ < rows - 1) := by omega
    constructor
    · intro hfrac
      rw [if_neg hint, if_neg hA, if_pos ⟨hyeq, hxlt⟩, if_pos hfrac]
    · intro hfrac
      rw [if_neg hint, if_neg hA, if_pos ⟨hyeq, hxlt⟩,
        if_neg (by rw [hfrac]; exact lt_irrefl 0), hyeq]

/-- C9 witness: `interp2` on the concrete `3 × 3` raster `I(r,c) = 10r + c`
at the in-bounds integer coordinates `(x, y) = (2, 1)` returns `I(1, 2) =
12`, by `interp2_integer_exact`. -/
theorem interp2_integer_exact_witness :
    interp2 3 3 (fun r c => 10 * r + c) ((2 : ℤ) : ℚ) ((1 : ℤ) : ℚ) 7 0 = 12 := by
  rw [interp2_integer_exact 3 3 (fun r c => 10 * r + c) 2 1 7
    (by norm_num) (by norm_num) (by norm_num) (by norm_num)]
  norm_num

/-- C3 witness: applying `interp2_edge_behavior` at `(x, y) = (1, 1/2)` on
the `2 × 2` raster `edgeProbeRaster` (exactly on the last column, zero
fractional column part) yields the row-axis linear interpolation `3`. -/
theorem interp2_edge_behavior_witness :
    interp2 2 2 edgeProbeRaster 1 (1/2) 0 0 =
      (1 - ((1/2 : ℚ) - ⌊(1/2 : ℚ)⌋)) * edgeProbeRaster ⌊(1/2 : ℚ)⌋ 1 +
        ((1/2 : ℚ) - ⌊(1/2 : ℚ)⌋) * edgeProbeRaster (⌊(1/2 : ℚ)⌋ + 1) 1 := by
  have h := ((interp2_edge_behavior 2 2 edgeProbeRaster 1 (1/2) 0).1
    (by norm_num) (by norm_num) (by norm_num)).2 (by norm_num)
  rw [h]
  norm_num

/-- Grid sampling of a `(2R+1) × (2R+1)` patch around `p`, mirroring
`interpolateFixedPatch` of `photobundle.cc` lines 62-77: the offset is
added to the center once, the outer loop runs over columns `c ∈ [-R, R]`
(col-major, as the source notes), the inner loop over rows `r ∈ [-R, R]`,
and each entry is `interp2(I, x + c, y + r, fillval)` with the default
zero interpolation offset. -/
def interpolateFixedPatch (R : ℕ) (rows cols : ℤ) (I : ℤ → ℤ → ℚ)
    (p : ℚ × ℚ) (fill offset : ℚ) : List ℚ :=
  let x := p.1 + offset
  let y := p.2 + offset
  (List.range (2 * R + 1)).flatMap fun (ci : ℕ) =>
    (List.range (2 * R + 1)).map fun (ri : ℕ) =>
      interp2 rows cols I (x + (((ci : ℤ) - (R : ℤ) : ℤ) : ℚ))
        (y + (((ri : ℤ) - (R : ℤ) : ℤ) : ℚ)) fill 0

/-- Round-half-away-from-zero, the semantics of C++ `std::round`. -/
def roundHalfAway (q : ℚ) : ℤ := if q < 0 then -⌊-q + 1/2⌋ else ⌊q + 1/2⌋

/-- Nearest-pixel patch extraction, mirroring `copyFixedPatch` of
`photobundle.cc` lines 80-97: the center is rounded to integers, and each
sample coordinate is `max(R, min(x + c, max_cols))` resp.
`max(R, min(y + r, max_rows))` — note the lower clamp bound is `R`, taken
verbatim from the source. -/
def copyFixedPatch (R : ℕ) (rows cols : ℤ) (I : ℤ → ℤ → ℚ)
    (p : ℚ × ℚ) : List ℚ :=
  let x := roundHalfAway p.1
  let y := roundHalfAway p.2
  let maxCols := cols - 1
  let maxRows := rows - 1
  (List.range (2 * R + 1)).flatMap fun (ci : ℕ) =>
    (List.range (2 * R + 1)).map fun (ri : ℕ) =>
      let xc := max (R : ℤ) (min (x + ((ci : ℤ) - (R : ℤ))) maxCols)
      let yc := max (R : ℤ) (min (y + ((ri : ℤ) - (R : ℤ))) maxRows)
      I yc xc

/-- Zero-mean normalized cross-correlation patch, mirroring the `ZnccPatch`
class of `photobundle.cc` lines 99-145.  The C++ object caches `_data`
(the mean-subtracted samples) and `_norm = _data.norm()`; since the norm
is a square root, the embedding caches its exact square `normSq` in `ℚ`
and recovers the cached norm as `ZnccPatch.norm = Real.sqrt normSq`. -/
structure ZnccPatch where
  data : List ℚ
  normSq : ℚ

/-- Dot product of two coefficient vectors (`Eigen`'s `_data.dot`). -/
def dotProd (a b : List ℚ) : ℚ := (List.zipWith (fun u v => u * v) a b).sum

/-- Sum of squared entries; `sumSq l` is the square of the L2 norm of `l`. -/
def sumSq (l : List ℚ) : ℚ := (l.map fun v => v * v).sum

/-- Patch construction, mirroring `ZnccPatch::set` (`photobundle.cc` lines
114-123): sample the fixed patch with fill value `0` and offset `0`,
subtract the mean (sum divided by the patch dimension `(2R+1)²`), and
cache the norm (here: its square). -/
def ZnccPatch.set (R : ℕ) (rows cols : ℤ) (I : ℤ → ℤ → ℚ)
    (uv : ℚ × ℚ) : ZnccPatch :=
  let samples := interpolateFixedPatch R rows cols I uv 0 0
  let mean := samples.sum / (((2 * R + 1) * (2 * R + 1) : ℕ) : ℚ)
  let d := samples.map fun v => v - mean
  { data := d, normSq := sumSq d }

/-- Cached norm of a patch: the square root of the cached squared norm
(`_norm` of the C++ object). -/
noncomputable def ZnccPatch.norm (p : ZnccPatch) : ℝ :=
  Real.sqrt ((p.normSq : ℚ) : ℝ)

/-- Correlation score, mirroring `ZnccPatch::score` (`photobundle.cc`
lines 133-137): `d = _norm * other._norm`; if `d > 1e-6` return
`_data.dot(other._data) / d`, else return `-1.0`. -/
noncomputable def ZnccPatch.score (a b : ZnccPatch) : ℝ :=
  if 1e-6 < a.norm * b.norm then
    ((dotProd a.data b.data : ℚ) : ℝ) / (a.norm * b.norm)
  else -1

theorem dotProd_comm (a b : List ℚ) : dotProd a b = dotProd b a := by
  unfold dotProd
  induction a generalizing b with
  | nil => cases b <;> rfl
  | cons u ta ih =>
    cases b with
    | nil => rfl
    | cons v tb =>
      simp only [List.zipWith_cons_cons, List.sum_cons]
      rw [mul_comm, ih tb]

theorem dotProd_self (l : List ℚ) : dotProd l l = sumSq l := by
  induction l with
  | nil => rfl
  | cons a t ih =>
    unfold dotProd sumSq at ih ⊢
    simp only [List.zipWith_cons_cons, List.map_cons, List.sum_cons]
    rw [ih]

theorem sumSq_nonneg (l : List ℚ) : 0 ≤ sumSq l := by
  unfold sumSq
  apply List.sum_nonneg
  intro x hx
  obtain ⟨v, _, rfl⟩ := List.mem_map.mp hx
  exact mul_self_nonneg v

theorem sum_map_sub_const (l : List ℚ) (m : ℚ) :
    (l.map fun v => v - m).sum = l.sum - l.length * m := by
  induction l with
  | nil => simp
  | cons a t ih =>
    simp only [List.map_cons, List.sum_cons, List.length_cons, ih]
    push_cast
    ring

theorem length_grid {α : Type} (n m : ℕ) (g : ℕ → ℕ → α) :
    ((List.range n).flatMap fun ci => (List.range m).map (g ci)).length = n * m := by
  induction n with
  | zero => simp
  | succ k ih =>
    rw [List.range_succ]
    simp only [List.flatMap_append, List.length_append, ih]
    simp [Nat.succ_mul]

/-- C8 (confirmed): after `ZnccPatch.set`, the stored data vector has
`(2R+1) * (2R+1)` entries, equals the subpixel samples (taken by the
bilinear sampler with fill value `0`) minus their mean, sums to zero in
exact arithmetic, and the cached norm is the L2 norm of that vector,
hence non-negative. -/
theorem zncc_set_contract (R : ℕ) (rows cols : ℤ) (I : ℤ → ℤ → ℚ)
    (uv : ℚ × ℚ) :
    (ZnccPatch.set R rows cols I uv).data.length = (2 * R + 1) * (2 * R + 1) ∧
    (ZnccPatch.set R rows cols I uv).data =
      (interpolateFixedPatch R rows cols I uv 0 0).map
        (fun v => v - (interpolateFixedPatch R rows cols I uv 0 0).sum /
          (((2 * R + 1) * (2 * R + 1) : ℕ) : ℚ)) ∧
    (ZnccPatch.set R rows cols I uv).data.sum = 0 ∧
    (ZnccPatch.set R rows cols I uv).norm =
      Real.sqrt ((sumSq (ZnccPatch.set R rows cols I uv).data : ℚ) : ℝ) ∧
    0 ≤ (ZnccPatch.set R rows cols I uv).norm := by
  have hlen : (interpolateFixedPatch R rows cols I uv 0 0).length =
      (2 * R + 1) * (2 * R + 1) := by
    unfold interpolateFixedPatch
    exact length_grid (2 * R + 1) (2 * R + 1) _
  refine ⟨?_, rfl, ?_, rfl, Real.sqrt_nonneg _⟩
  · show ((interpolateFixedPatch R rows cols I uv 0 0).map _).length = _
    rw [List.length_map, hlen]
  · show ((interpolateFixedPatch R rows cols I uv 0 0).map _).sum = 0
    rw [sum_map_sub_const, hlen]
    have hne : (((2 * R + 1) * (2 * R + 1) : ℕ) : ℚ) ≠ 0 := by positivity
    field_simp

/-- C10 (confirmed): the correlation score is symmetric: for all patches
`a`, `b`, `a.score b = b.score a` (the norm product and the dot product
are both symmetric). -/
theorem zncc_score_symm (a b : ZnccPatch) : a.score b = b.score a := by
  unfold ZnccPatch.score
  rw [mul_comm b.norm a.norm, dotProd_comm b.data a.data]

/-- Raster whose `3 × 3` patch at center `(2, 2)` has squared norm exactly
`1e-6`: four entries `±1/2000` (mean zero), the rest zero, giving
`4 · (1/2000)² = 10⁻⁶`. -/
def tinyVarRaster : ℤ → ℤ → ℚ := fun r c =>
  if r = 1 ∧ c = 1 then 1/2000
  else if r = 1 ∧ c = 2 then -(1/2000)
  else if r = 2 ∧ c = 1 then 1/2000
  else if r = 2 ∧ c = 2 then -(1/2000)
  else 0

/-- Patch with strictly positive but tiny variance: its cached norm is
`10⁻³ > 0`, so the norm product in a self-score is exactly `1e-6`, which
fails the strict `d > 1e-6` test of `ZnccPatch::score`. -/
def pSmall : ZnccPatch := ZnccPatch.set 1 5 5 tinyVarRaster (2, 2)

theorem pSmall_normSq : pSmall.normSq = 1/1000000 := by
  norm_num [pSmall, ZnccPatch.set, interpolateFixedPatch, interp2, sumSq,
    tinyVarRaster, List.range_succ]

theorem set_normSq_nonneg (R : ℕ) (rows cols : ℤ) (I : ℤ → ℤ → ℚ)
    (uv : ℚ × ℚ) : 0 ≤ (ZnccPatch.set R rows cols I uv).normSq :=
  sumSq_nonneg _

theorem set_dotProd_self (R : ℕ) (rows cols : ℤ) (I : ℤ → ℤ → ℚ)
    (uv : ℚ × ℚ) :
    dotProd (ZnccPatch.set R rows cols I uv).data
      (ZnccPatch.set R rows cols I uv).data =
      (ZnccPatch.set R rows cols I uv).normSq :=
  dotProd_self _

/-- C4 (counterexample): `pSmall` is produced by `ZnccPatch.set` and has
cached norm `10⁻³`, which is strictly positive (equivalently, its cached
squared norm `10⁻⁶` is strictly positive), yet its self-score is `-1`,
not `1`: the norm product is exactly `1e-6` and the source test
`d > 1e-6` fails. -/
theorem zncc_self_score_counterexample :
    0 < pSmall.normSq ∧ 0 < pSmall.norm ∧ pSmall.score pSmall = -1 ∧
    pSmall.score pSmall ≠ 1 := by
  have hns : pSmall.normSq = 1/1000000 := pSmall_normSq
  have hnorm : pSmall.norm * pSmall.norm = ((1/1000000 : ℚ) : ℝ) := by
    rw [ZnccPatch.norm, hns]
    exact Real.mul_self_sqrt (by norm_num)
  have hneg : ¬ (1e-6 : ℝ) < pSmall.norm * pSmall.norm := by
    rw [hnorm]
    norm_num
  have hval : pSmall.score pSmall = -1 := by
    unfold ZnccPatch.score
    rw [if_neg hneg]
  have hpos : 0 < pSmall.norm := by
    rw [ZnccPatch.norm, hns]
    exact Real.sqrt_pos.mpr (by norm_num)
  refine ⟨by rw [hns]; norm_num, hpos, hval, by rw [hval]; norm_num⟩

/-- C4 (amended): a patch produced by `ZnccPatch.set` correlated with
itself yields exactly `1` whenever its cached squared norm exceeds `1e-6`
(equivalently, whenever its cached norm exceeds `1e-3`) — not merely
whenever the norm is strictly positive. -/
theorem zncc_self_score_one (R : ℕ) (rows cols : ℤ) (I : ℤ → ℤ → ℚ)
    (uv : ℚ × ℚ)
    (h : (1e-6 : ℚ) < (ZnccPatch.set R rows cols I uv).normSq) :
    (ZnccPatch.set R rows cols I uv).score (ZnccPatch.set R rows cols I uv)
      = 1 := by
  have hnn : (0 : ℚ) ≤ (ZnccPatch.set R rows cols I uv).normSq :=
    set_normSq_nonneg R rows cols I uv
  have hnorm : (ZnccPatch.set R rows cols I uv).norm *
      (ZnccPatch.set R rows cols I uv).norm =
      (((ZnccPatch.set R rows cols I uv).normSq : ℚ) : ℝ) := by
    rw [ZnccPatch.norm]
    exact Real.mul_self_sqrt (by exact_mod_cast hnn)
  have hlt : (1e-6 : ℝ) <
      (((ZnccPatch.set R rows cols I uv).normSq : ℚ) : ℝ) := by
    have hq : (((1e-6 : ℚ) : ℚ) : ℝ) <
        (((ZnccPatch.set R rows cols I uv).normSq : ℚ) : ℝ) := by
      exact_mod_cast h
    have hlit : (((1e-6 : ℚ) : ℚ) : ℝ) = (1e-6 : ℝ) := by norm_num
    rw [hlit] at hq
    exact hq
  unfold ZnccPatch.score
  rw [hnorm, if_pos hlt, set_dotProd_self]
  exact div_self (by positivity)

/-- Raster whose `3 × 3` patch at center `(2, 2)` has large variance: one
sample is `9`, the other eight are `0`, giving mean `1` and squared norm
`64 + 8 = 72`. -/
def bigVarRaster : ℤ → ℤ → ℚ := fun r c => if r = 1 ∧ c = 1 then 9 else 0

theorem bigVar_normSq :
    (ZnccPatch.set 1 5 5 bigVarRaster (2, 2)).normSq = 72 := by
  norm_num [ZnccPatch.set, interpolateFixedPatch, interp2, sumSq,
    bigVarRaster, List.range_succ]

/-- C4 witness: the concrete patch sampled by `ZnccPatch.set` from
`bigVarRaster` has cached squared norm `72 > 1e-6`, and by
`zncc_self_score_one` its self-score is exactly `1`. -/
theorem zncc_self_score_one_witness :
    (ZnccPatch.set 1 5 5 bigVarRaster (2, 2)).score
      (ZnccPatch.set 1 5 5 bigVarRaster (2, 2)) = 1 :=
  zncc_self_score_one 1 5 5 bigVarRaster (2, 2)
    (by rw [bigVar_normSq]; norm_num)

/-- Specification-side score, following the spec's words for C5 verbatim:
return the normalized cross-correlation "unless that product is below
1e-6", i.e. the sentinel `-1` is returned only when the norm product is
strictly below `1e-6`. -/
noncomputable def scoreSpecStrict (a b : ZnccPatch) : ℝ :=
  if a.norm * b.norm < 1e-6 then -1
  else ((dotProd a.data b.data : ℚ) : ℝ) / (a.norm * b.norm)

/-- Specification-side score as amended: the sentinel `-1` is returned
whenever the norm product is at or below `1e-6` (the source test is the
strict `d > 1e-6`). -/
noncomputable def scoreSpecAtMostCutoff (a b : ZnccPatch) : ℝ :=
  if a.norm * b.norm ≤ 1e-6 then -1
  else ((dotProd a.data b.data : ℚ) : ℝ) / (a.norm * b.norm)

/-- C5 (counterexample): at the boundary the claim and the code disagree.
The `ZnccPatch.set`-produced patch `pSmall` has norm product exactly
`1e-6` in a self-score, which is not below `1e-6`, so the claimed
behavior (`scoreSpecStrict`) returns the normalized correlation `1`,
while the code returns the sentinel `-1`. -/
theorem zncc_score_cutoff_counterexample :
    pSmall.score pSmall = -1 ∧ scoreSpecStrict pSmall pSmall = 1 := by
  have hns : pSmall.normSq = 1/1000000 := pSmall_normSq
  have hnorm : pSmall.norm * pSmall.norm = ((1/1000000 : ℚ) : ℝ) := by
    rw [ZnccPatch.norm, hns]
    exact Real.mul_self_sqrt (by norm_num)
  constructor
  · unfold ZnccPatch.score
    rw [if_neg]
    rw [hnorm]
    norm_num
  · unfold scoreSpecStrict
    rw [if_neg (by rw [hnorm]; norm_num)]
    rw [hnorm]
    have hdot : dotProd pSmall.data pSmall.data = 1/1000000 := by
      rw [dotProd_self pSmall.data]
      exact hns
    rw [hdot]
    norm_num

/-- C5 (amended): for all patches `a`, `b`, the score equals the
normalized cross-correlation when the product of cached norms exceeds
`1e-6` and the sentinel `-1` when the product is at or below `1e-6`
(`scoreSpecAtMostCutoff`); in particular a patch with zero cached
squared norm (zero variance) scores `-1` against every patch. -/
theorem zncc_score_spec (a b : ZnccPatch) :
    a.score b = scoreSpecAtMostCutoff a b ∧
    (a.normSq = 0 → a.score b = -1) := by
  constructor
  · unfold ZnccPatch.score scoreSpecAtMostCutoff
    rcases le_or_lt (a.norm * b.norm) 1e-6 with h | h
    · rw [if_neg (not_lt.mpr h), if_pos h]
    · rw [if_pos h, if_neg (not_le.mpr h)]
  · intro h0
    unfold ZnccPatch.score
    rw [if_neg]
    intro hcon
    rw [ZnccPatch.norm, h0] at hcon
    rw [Rat.cast_zero, Real.sqrt_zero, zero_mul] at hcon
    exact absurd hcon (by norm_num)

/-- Raster that is constant `7`: every `ZnccPatch` sampled entirely inside
it has zero variance. -/
def constRaster : ℤ → ℤ → ℚ := fun _ _ => 7

/-- Zero-variance patch produced by `ZnccPatch.set` from the constant
raster. -/
def pZero : ZnccPatch := ZnccPatch.set 1 5 5 constRaster (2, 2)

theorem pZero_normSq : pZero.normSq = 0 := by
  norm_num [pZero, ZnccPatch.set, interpolateFixedPatch, interp2, sumSq,
    constRaster, List.range_succ]

/-- C5 witness: applying `zncc_score_spec` to the concrete zero-variance
patch `pZero` (cached squared norm `0`, discharged by `pZero_normSq`)
shows it scores the sentinel `-1` against `pSmall`. -/
theorem zncc_score_spec_witness : pZero.score pSmall = -1 :=
  (zncc_score_spec pZero pSmall).2 pZero_normSq

/-- Raster for the C6 failing input: value `42` at pixel `(1, 1)`, value
`7` at pixel `(0, 0)`, zero elsewhere, on a `4 × 4` image. -/
def copyProbeRaster : ℤ → ℤ → ℚ := fun r c =>
  if r = 1 ∧ c = 1 then 42 else if r = 0 ∧ c = 0 then 7 else 0

/-- C6 (code_bug): `copyFixedPatch` clamps each sample coordinate to the
lower bound `R`, not `0`: with radius `R = 1` and center `(0, 0)` on a
`4 × 4` raster, the first patch entry (grid offset `(-1, -1)`) uses
coordinates `max(1, min(-1, 3)) = 1`, reading pixel `(1, 1) = 42`,
whereas clamping into `[0, cols-1] × [0, rows-1]` as claimed would read
pixel `(0, 0) = 7`. -/
theorem copyFixedPatch_clamp_bug :
    (copyFixedPatch 1 4 4 copyProbeRaster (0, 0)).head? = some 42 ∧
    copyProbeRaster 0 0 = 7 ∧ (42 : ℚ) ≠ 7 := by
  refine ⟨?_, by norm_num [copyProbeRaster], by norm_num⟩
  norm_num [copyFixedPatch, roundHalfAway, copyProbeRaster, List.range_succ]

/-- Three-component point, standing for the `Vec3` of the source. -/
abbrev Vec3 := ℚ × ℚ × ℚ

/-- Scene point, mirroring `PhotometricBundleAdjustment::ScenePoint`
(`photobundle.cc` lines 150-230): position `X`, immutable original
position, visibility list `f` of frame ids (`_f`), reference patch,
descriptor, saliency, refined flag and first projection `x`.  The C++
constructor leaves `_patch` and `_x` default-initialized; the embedding
uses the empty patch and the origin for these. -/
structure ScenePoint where
  X : Vec3
  X_original : Vec3
  f : List ℕ
  patch : ZnccPatch
  descriptor : List ℚ
  saliency : ℚ
  was_refined : Bool
  x : ℤ × ℤ

/-- Scene point construction (`photobundle.cc` lines 163-168): store the
position twice (current and original) and start the visibility list as
the single reference frame id. -/
def ScenePoint.create (X : Vec3) (f_id : ℕ) : ScenePoint :=
  { X := X, X_original := X, f := [f_id], patch := ⟨[], 0⟩,
    descriptor := [], saliency := 0, was_refined := false, x := (0, 0) }

/-- Observation append (`photobundle.cc` line 198): `_f.push_back(f)`,
with no ordering or duplication check. -/
def ScenePoint.addFrame (p : ScenePoint) (f : ℕ) : ScenePoint :=
  { p with f := p.f ++ [f] }

/-- Fold of `ScenePoint.addFrame` over a list of frame ids: every scene
point reachable from `ScenePoint.create` by the public mutators of the
visibility list has this shape. -/
def ScenePoint.addFrames (p : ScenePoint) (ids : List ℕ) : ScenePoint :=
  ids.foldl ScenePoint.addFrame p

/-- Membership test (`photobundle.cc` lines 173-175). -/
def ScenePoint.hasFrame (p : ScenePoint) (f_id : ℕ) : Bool :=
  p.f.contains f_id

theorem addFrames_f (ids : List ℕ) (p : ScenePoint) :
    (p.addFrames ids).f = p.f ++ ids := by
  induction ids generalizing p with
  | nil => simp [ScenePoint.addFrames]
  | cons i t ih =>
    show ((p.addFrame i).addFrames t).f = _
    rw [ih (p.addFrame i)]
    show (p.f ++ [i]) ++ t = p.f ++ i :: t
    simp

/-- C7 (counterexample): `ScenePoint::addFrame` appends unconditionally,
so calling it with a frame id smaller than the current last id produces
the visibility list `[5, 3]`, which is not strictly increasing. -/
theorem scenePoint_visibility_counterexample :
    ((ScenePoint.create (0, 0, 0) 5).addFrame 3).f = [5, 3] ∧
    ¬ List.Chain' (fun a b => a < b)
      ((ScenePoint.create (0, 0, 0) 5).addFrame 3).f := by
  constructor
  · rfl
  · intro h
    have hf : ((ScenePoint.create (0, 0, 0) 5).addFrame 3).f = [5, 3] := rfl
    rw [hf] at h
    rw [List.chain'_cons] at h
    omega

/-- C7 (amended): for any scene point obtained from `ScenePoint.create`
followed by any sequence of `ScenePoint.addFrame` calls, the visibility
list always has length at least `1` and starts with the reference frame
id; it is strictly increasing provided the appended ids are strictly
increasing and start above the reference id — the code itself enforces
no ordering. -/
theorem scenePoint_visibility (X : Vec3) (f_id : ℕ) (ids : List ℕ) :
    1 ≤ ((ScenePoint.create X f_id).addFrames ids).f.length ∧
    ((ScenePoint.create X f_id).addFrames ids).f.head? = some f_id ∧
    (List.Chain' (fun a b => a < b) (f_id :: ids) →
      List.Chain' (fun a b => a < b)
        ((ScenePoint.create X f_id).addFrames ids).f) := by
  have hf : ((ScenePoint.create X f_id).addFrames ids).f = f_id :: ids := by
    rw [addFrames_f]
    rfl
  rw [hf]
  exact ⟨by simp, rfl, fun h => h⟩

/-- C7 witness: creating a scene point with reference frame `1` and
appending frames `2` then `3` (a strictly increasing sequence) yields a
strictly increasing visibility list, by `scenePoint_visibility`. -/
theorem scenePoint_visibility_witness :
    List.Chain' (fun a b => a < b)
      (((ScenePoint.create (0, 0, 0) 1).addFrames [2, 3]).f) :=
  (scenePoint_visibility (0, 0, 0) 1 [2, 3]).2.2
    (by simp [List.chain'_cons])

/-- Modelled from the spec: camera intrinsics (the header `photobundle.h`
declaring `Calibration` is not among the sources; only its use as a
stored construction argument is). -/
structure Calibration where
  fx : ℚ
  fy : ℚ
  cx : ℚ
  cy : ℚ

/-- Modelled from the spec: configured image dimensions. -/
structure ImageSize where
  rows : ℕ
  cols : ℕ

/-- Modelled from the spec: recognized configuration fields — window
size, patch radius, correlation acceptance threshold, solver iteration
budget (the header declaring `Options` is not among the sources). -/
structure Options where
  slidingWindowSize : ℕ
  patchRadius : ℕ
  minScore : ℚ
  maxIterations : ℕ

/-- Homogeneous 4 × 4 pose matrix (the `Mat44` argument of `addFrame`). -/
abbrev Mat44 := Fin 4 → Fin 4 → ℚ

/-- Modelled from the spec: the `Result` output of `addFrame` carries the
refined poses, a snapshot of the currently tracked points, and solver
diagnostics — iterations, final cost, convergence flag (the header
declaring `Result` is not among the sources). -/
structure Result where
  poses : List Mat44
  refinedPoints : List Vec3
  iterations : ℕ
  finalCost : ℚ
  converged : Bool

/-- Engine state, mirroring `PhotometricBundleAdjustment`: the stored
calibration, image size and options (`photobundle.cc` lines 237-239) and
the scene-point map. -/
structure PhotometricBundleAdjustment where
  calib : Calibration
  image_size : ImageSize
  options : Options
  scenePoints : List ScenePoint

/-- Construction (`photobundle.cc` lines 237-239): store calibration,
image size and options; the scene-point map starts empty. -/
def PhotometricBundleAdjustment.init (calib : Calibration)
    (image_size : ImageSize) (options : Options) :
    PhotometricBundleAdjustment :=
  { calib := calib, image_size := image_size, options := options,
    scenePoints := [] }

/-- Per-frame entry point, mirroring
`PhotometricBundleAdjustment::addFrame` (`photobundle.cc` lines 244-247).
The body of the C++ function is empty, so the embedding returns the
engine state unchanged, the result object unchanged, and no error
(`none` in the error channel that an explicit failure would use). -/
def PhotometricBundleAdjustment.addFrame
    (self : PhotometricBundleAdjustment) (_img : ℤ → ℤ → ℚ)
    (_depth : ℤ → ℤ → ℚ) (_pose : Mat44) (result : Result) :
    PhotometricBundleAdjustment × Result × Option String :=
  (self, result, none)

/-- C1 (code_bug): the committed `addFrame` body is empty.  For every
call — malformed input included — it leaves the scene-point map
unmodified, writes nothing into the result, and raises no error, so it
neither populates `result` nor fails with an explicit error on
image/depth size mismatch or a non-rigid pose. -/
theorem addFrame_is_stub (self : PhotometricBundleAdjustment)
    (img depth : ℤ → ℤ → ℚ) (pose : Mat44) (result : Result) :
    self.addFrame img depth pose result = (self, result, none) ∧
    (self.addFrame img depth pose result).1.scenePoints = self.scenePoints :=
  ⟨rfl, rfl⟩
